import Mathlib

/-!
Verification development for the TalentScout hiring-assistant chatbot
(`app.py` conversation state machine, `local_llm.py` Phi3OllamaManager).

Shallow embedding notes:
* Python strings are modelled as Lean `String`; all text processing is done
  on the underlying `List Char` so that every definition reduces in the
  kernel.  `str.strip` / `str.lower` / `str.split` are modelled by
  `pyStrip, pyLower, wordsAux` below; the whitespace set is the ASCII
  whitespace Python uses ({9,10,11,12,13,32}).  `re` character classes
  `[A-Za-z]`, `[0-9]` are `isAsciiAlpha`, `isAsciiDigit`.  Python's
  unicode-aware `str.isalpha`/`str.isdigit` are modelled by the same ASCII
  predicates.
* Python `float(...)` is modelled by `pyFloat?`, which parses the
  sign/digits/point/exponent grammar (with underscores between digits)
  into an exact rational `num / den` held as `(num : Int, den : Nat)`;
  `inf`/`nan` literals are parsed as failure, which yields the same
  validator verdict as the source (their range check is false as well).
  IEEE rounding is abstracted: values are exact rationals.
* Calls to the external text-completion service are oracles: an
  `Option String` where `none` models an exception or a `None` result
  (the caller wraps every call in `try/except`), and `some s` the string
  the call returned.
-/

/-! ### Character classes (from the regexes in `app.py`) -/

def isAsciiUpper (c : Char) : Bool := 65 ≤ c.toNat && c.toNat ≤ 90

def isAsciiLower (c : Char) : Bool := 97 ≤ c.toNat && c.toNat ≤ 122

def isAsciiAlpha (c : Char) : Bool := isAsciiUpper c || isAsciiLower c

def isAsciiDigit (c : Char) : Bool := 48 ≤ c.toNat && c.toNat ≤ 57

/-- ASCII whitespace stripped by Python's `str.strip()` and split on by
`str.split()`: TAB, LF, VT, FF, CR, SPACE. -/
def pyIsSpace (c : Char) : Bool :=
  c.toNat = 32 || c.toNat = 9 || c.toNat = 10 || c.toNat = 11 || c.toNat = 12 || c.toNat = 13

/-! ### Python string primitives on `List Char` -/

/-- Python `str.strip()` on a char list. -/
def pyStripList (cs : List Char) : List Char :=
  ((cs.dropWhile pyIsSpace).reverse.dropWhile pyIsSpace).reverse

/-- Python `str.strip()`. -/
def pyStrip (s : String) : String := ⟨pyStripList s.data⟩

/-- Python `str.lower()` (ASCII case mapping; the inputs relevant here are ASCII). -/
def pyLower (s : String) : String := ⟨s.data.map Char.toLower⟩

/-- Python `str.startswith(pre)`. -/
def pyStartsWith (s pre : String) : Bool := pre.data.isPrefixOf s.data

/-- Helper for `str.split()` (split on whitespace runs, no empty words):
`acc` is the current word, reversed. -/
def wordsAux : List Char → List Char → List (List Char)
  | [], acc => if acc.isEmpty then [] else [acc.reverse]
  | c :: rest, acc =>
    if pyIsSpace c then
      if acc.isEmpty then wordsAux rest [] else acc.reverse :: wordsAux rest []
    else wordsAux rest (c :: acc)

/-- Python `len(val.split())`: the number of whitespace-separated words. -/
def wordCountL (cs : List Char) : Nat := (wordsAux cs []).length

/-! ### Validators (from `app.py`) -/

/-- Pattern `[A-Za-z\-' ]` — the middle class of the name regex (45 `-`, 39 `'`, 32 space). -/
def nameMidChar (c : Char) : Bool :=
  isAsciiAlpha c || c.toNat = 45 || c.toNat = 39 || c.toNat = 32

/-- Python `looks_like_name` (get_name branch): regex
`^[A-Za-z][A-Za-z\-' ]+[A-Za-z]$` on the stripped value, and at least two
words. -/
def looks_like_name (s : String) : Bool :=
  let vs := pyStripList s.data
  (match vs with
   | [] => false
   | c0 :: rest =>
     isAsciiAlpha c0 && decide (2 ≤ rest.length) &&
       rest.dropLast.all nameMidChar && isAsciiAlpha (rest.getLastD ' ')) &&
  decide (2 ≤ wordCountL vs)

/-- Pattern `[A-Za-z0-9._%+-]` (46 `.`, 95 `_`, 37 `%`, 43 `+`, 45 `-`). -/
def emailLocalChar (c : Char) : Bool :=
  isAsciiAlpha c || isAsciiDigit c || c.toNat = 46 || c.toNat = 95 ||
    c.toNat = 37 || c.toNat = 43 || c.toNat = 45

/-- Pattern `[A-Za-z0-9.-]`. -/
def emailDomChar (c : Char) : Bool :=
  isAsciiAlpha c || isAsciiDigit c || c.toNat = 46 || c.toNat = 45

/-- Python `looks_like_email` (get_email branch): regex
`^[A-Za-z0-9._%+-]+@[A-Za-z0-9.-]+\.[A-Za-z]{2,}$` on the stripped value.
Since `@` is in neither class the match splits at the unique `@`, and since
the TLD class has no `.` the final `\.` matches the last dot. -/
def looks_like_email (s : String) : Bool :=
  let vs := pyStripList s.data
  let lp := vs.takeWhile (fun c => !(c.toNat = 64))
  match vs.drop lp.length with
  | [] => false
  | _ :: dom =>
    !lp.isEmpty && lp.all emailLocalChar &&
      (match dom.reverse.span (fun c => !(c.toNat = 46)) with
       | (rtld, _ :: rfront) =>
         decide (2 ≤ rtld.length) && rtld.all isAsciiAlpha &&
           !rfront.isEmpty && rfront.all emailDomChar
       | (_, []) => false)

/-- Python `looks_like_phone` (get_phone branch): strip, remove spaces and hyphens,
then all-digits (`str.isdigit`, false on empty) with length in `[7, 15]`. -/
def looks_like_phone (s : String) : Bool :=
  let vs := (pyStripList s.data).filter (fun c => !(c.toNat = 32) && !(c.toNat = 45))
  !vs.isEmpty && vs.all isAsciiDigit && decide (7 ≤ vs.length) && decide (vs.length ≤ 15)

/-! ### `float(...)` model -/

/-- A run of digits possibly containing single underscores between digits
(Python numeric-literal rule); returns the digits with underscores removed,
`none` if the run is empty or malformed. -/
def udigits? : List Char → Option (List Char)
  | [] => none
  | [c] => if isAsciiDigit c then some [c] else none
  | c :: c2 :: rest =>
    if !(isAsciiDigit c) then none
    else if c2.toNat = 95 then
      match rest with
      | [] => none
      | r :: _ => if isAsciiDigit r then (udigits? rest).map (c :: ·) else none
    else (udigits? (c2 :: rest)).map (c :: ·)

def digitsToNat (ds : List Char) : Nat :=
  ds.foldl (fun acc c => 10 * acc + (c.toNat - 48)) 0

/-- Python `float(s)` as an exact rational `num / den` (`den > 0`):
optional sign, then digits with an optional point, then an optional
exponent.  `inf`/`nan` parse as `none` here; see the header note. -/
def pyFloat? (s : String) : Option (Int × Nat) :=
  let cs := pyStripList s.data
  let signAndRest : Int × List Char :=
    match cs with
    | c :: rest =>
      if c.toNat = 43 then (1, rest)
      else if c.toNat = 45 then (-1, rest) else (1, cs)
    | [] => (1, [])
  let sign := signAndRest.1
  let cs1 := signAndRest.2
  let mant := cs1.takeWhile (fun c => !(c.toNat = 101) && !(c.toNat = 69))
  let rest := cs1.drop mant.length
  let ip := mant.takeWhile (fun c => !(c.toNat = 46))
  let mOk : Option (Nat × Nat × Nat) :=
    match mant.drop ip.length with
    | [] =>
      match udigits? ip with
      | some ds => some (digitsToNat ds, 0, 0)
      | none => none
    | _ :: fp =>
      match ip, fp with
      | [], [] => none
      | [], _ => (udigits? fp).map fun ds => (0, digitsToNat ds, ds.length)
      | _, [] => (udigits? ip).map fun ds => (digitsToNat ds, 0, 0)
      | _, _ =>
        match udigits? ip, udigits? fp with
        | some a, some b => some (digitsToNat a, digitsToNat b, b.length)
        | _, _ => none
  let eOk : Option Int :=
    match rest with
    | [] => some 0
    | _ :: ecs =>
      let esignAndRest : Int × List Char :=
        match ecs with
        | c :: r =>
          if c.toNat = 43 then (1, r)
          else if c.toNat = 45 then (-1, r) else (1, ecs)
        | [] => (1, [])
      (udigits? esignAndRest.2).map fun ds => esignAndRest.1 * (digitsToNat ds : Int)
  match mOk, eOk with
  | some (iv, fv, fd), some e =>
    let n : Int := sign * ((iv : Int) * (10 : Int) ^ fd + (fv : Int))
    if 0 ≤ e then some (n * (10 : Int) ^ e.toNat, 10 ^ fd)
    else some (n, 10 ^ fd * 10 ^ (-e).toNat)
  | _, _ => none

/-- Python `looks_like_experience` (get_experience branch): `float(val)` succeeds and
`0 <= years <= 50`.  With the exact value `n / d` (`d > 0`) the range check
is `0 ≤ n ∧ n ≤ 50 * d`. -/
def looks_like_experience (s : String) : Bool :=
  let val := pyStrip s
  match pyFloat? val with
  | some nd => decide (0 ≤ nd.1) && decide (nd.1 ≤ 50 * (nd.2 : Int))
  | none => false

/-- Pattern `[A-Za-z ]`. -/
def positionChar (c : Char) : Bool := isAsciiAlpha c || c.toNat = 32

/-- Python `is_valid_position` (module level in `app.py`): regex `^[A-Za-z ]+$`,
length at least 5, at least two words, all on the stripped value. -/
def is_valid_position (position : String) : Bool :=
  let vs := pyStripList position.data
  !vs.isEmpty && vs.all positionChar && decide (5 ≤ vs.length) &&
    decide (2 ≤ wordCountL vs)

/-- Pattern `[A-Za-z ,\-]` (44 `,`). -/
def locationChar (c : Char) : Bool :=
  isAsciiAlpha c || c.toNat = 32 || c.toNat = 44 || c.toNat = 45

/-- Python `is_valid_location` (get_location branch): regex `^[A-Za-z ,\-]+$`,
length at least 5, at least two words. -/
def is_valid_location (s : String) : Bool :=
  let vs := pyStripList s.data
  !vs.isEmpty && vs.all locationChar && decide (5 ≤ vs.length) &&
    decide (2 ≤ wordCountL vs)

/-! ### Tech-stack splitting -/

/-- Pattern `,` or `;` — the separators of `re.split(r",|;", ...)`. -/
def isSkillSep (c : Char) : Bool := c.toNat = 44 || c.toNat = 59

/-- Python `re.split(r",|;", ...)`: split at every separator, keeping empty chunks. -/
def splitChunks : List Char → List (List Char)
  | [] => [[]]
  | c :: rest =>
    if isSkillSep c then [] :: splitChunks rest
    else
      match splitChunks rest with
      | [] => [[c]]
      | chunk :: more => (c :: chunk) :: more

/-- Pattern `[s.strip() for s in re.split(r",|;", user_text) if s.strip()]`. -/
def parseSkills (s : String) : List String :=
  (((splitChunks s.data).map pyStripList).filter (fun cs => !cs.isEmpty)).map
    fun cs => (⟨cs⟩ : String)

/-! ### Question source (`LOCAL_QUESTION_BANK` and the per-skill loop of the
`get_tech_stack` branch in `app.py`) -/

def LOCAL_QUESTION_BANK : List (String × String) := [
  ("react", "What is a React component and how does state management work in React?"),
  ("fastapi", "What is FastAPI and how does it differ from Flask? Give a simple example of a FastAPI endpoint."),
  ("cpp", "What is RAII in C++ and how does its implementation affect resource management within an application? Provide a brief code example."),
  ("python", "What is a Python decorator and how is it used? Provide a simple example."),
  ("javascript", "What is event delegation in JavaScript and why is it useful?"),
  ("mongodb", "What is a MongoDB document and how does it differ from a relational database row?"),
  ("sql", "What is a JOIN in SQL and provide an example query."),
  ("docker", "What is Docker and how does containerization benefit development workflows?"),
  ("git", "What is the difference between git merge and git rebase?"),
  ("html", "What is the purpose of the <head> tag in HTML?"),
  ("css", "What is the box model in CSS?"),
  ("node.js", "What is the event loop in Node.js?"),
  ("java", "What is inheritance in Java and how is it implemented?")]

/-- Python `LOCAL_QUESTION_BANK.get(key)`. -/
def bankLookup (k : String) : Option String :=
  (LOCAL_QUESTION_BANK.find? (fun e => e.1 == k)).map (·.2)

/-- The generation system prompt built for a skill (f-string in the
`get_tech_stack` branch). -/
def questionSystemPrompt (skill : String) : String :=
  "You are an AI hiring assistant. Generate a technical interview question for a BEGINNER about the following skill: "
    ++ skill ++ ". The question must be specific to " ++ skill
    ++ " and NOT about any other skill. Return only the question, do not number it."

/-- The degraded generic question used when generation fails and the bank has
no entry for the skill. -/
def fallbackQuestion (skill : String) : String :=
  "[ERROR] Could not generate a unique technical question for " ++ skill
    ++ ". Please try again, rephrase your tech stack, or answer: What is your experience with "
    ++ skill ++ "? (Describe briefly.)"

/-- One attempt of the generation loop: the raw service result is usable only
if it is a string whose stripped form is longer than 5 characters and not in
the already-asked set; the usable value is the stripped text. -/
def usableResult (asked : List String) (r : Option String) : Option String :=
  match r with
  | none => none
  | some q =>
    let qt := pyStrip q
    if decide (5 < qt.length) then (if asked.contains qt then none else some qt) else none

structure QResult where
  question : String
  generated : Bool
  attempts : Nat
  deriving Repr, DecidableEq

/-- The per-skill question loop (`for attempt in range(max_attempts)` with
`max_attempts = 3`, then the local-bank / generic fallback).  `gen n` is the
outcome of the `n`-th `generate_response` call for this skill (`none` models
an exception or `None`; the source catches every exception from the call).
`attempts` is the number of service calls made. -/
def get_question (gen : Nat → Option String) (asked : List String) (skill : String) : QResult :=
  match usableResult asked (gen 0) with
  | some q => ⟨q, true, 1⟩
  | none =>
    match usableResult asked (gen 1) with
    | some q => ⟨q, true, 2⟩
    | none =>
      match usableResult asked (gen 2) with
      | some q => ⟨q, true, 3⟩
      | none =>
        match bankLookup (pyLower skill) with
        | some lq => ⟨lq, false, 3⟩
        | none => ⟨fallbackQuestion skill, false, 3⟩

/-- The all-skills loop: questions accumulate in skill order; a generated
question is added to the asked set at the moment it is accepted (fallback
questions are not added to the set).  `gen i n` is the outcome of attempt `n`
for the skill at position `i`. -/
def generateAllAux (gen : Nat → Nat → Option String) :
    Nat → List String → List String → List (String × Bool) × List String
  | _, asked, [] => ([], asked)
  | i, asked, sk :: rest =>
    let r := get_question (gen i) asked sk
    let asked' := if r.generated then asked ++ [r.question] else asked
    let p := generateAllAux gen (i + 1) asked' rest
    ((r.question, r.generated) :: p.1, p.2)

def generateAll (gen : Nat → Nat → Option String) (skills : List String) :
    List (String × Bool) × List String :=
  generateAllAux gen 0 [] skills

/-! ### `Phi3OllamaManager.generate_response` (`local_llm.py`)

The response cache is an insertion-ordered association list (Python dict
order); `next(iter(d))` is its head.  Connection state after the
`_initialize_connection()` call and the `_generate_phi3_response` outcome are
oracle inputs of the call. -/

structure MgrState where
  cache : List (String × String)
  cacheMaxSize : Nat
  is_connected : Bool
  model_available : Bool
  deriving Repr, DecidableEq

/-- Python `cache_key = f"{prompt[:50]}_{system_message[:30] if system_message else ''}"`
(an absent or empty system message both contribute the empty string). -/
def cacheKey (prompt : String) (system_message : Option String) : String :=
  ⟨prompt.data.take 50 ++ [Char.ofNat 95] ++
    (match system_message with
     | some sm => sm.data.take 30
     | none => [])⟩

def cacheLookup (cache : List (String × String)) (k : String) : Option String :=
  (cache.find? (fun e => e.1 == k)).map (·.2)

/-- Python `_cache_response`: evict the oldest entry when full, then insert. -/
def cacheInsert (cache : List (String × String)) (k v : String) (maxSize : Nat) :
    List (String × String) :=
  (if maxSize ≤ cache.length then cache.tail else cache) ++ [(k, v)]

/-- Per-call oracle for `generate_response`: the connection flags after
`_initialize_connection()` and the `_generate_phi3_response` result (`none`
models `None`, which that method returns on every error or timeout). -/
structure GenOracle where
  connAfterInit : Bool
  modelAfterInit : Bool
  phi3Result : Option String

/-- Python `generate_response(prompt, system_message)`: returns the response, the new
manager state, and whether the completion service was invoked. -/
def generate_response (st : MgrState) (o : GenOracle) (prompt : String)
    (system_message : Option String) : String × MgrState × Bool :=
  let key := cacheKey prompt system_message
  match cacheLookup st.cache key with
  | some r => (r, st, false)
  | none =>
    let st1 := { st with is_connected := o.connAfterInit, model_available := o.modelAfterInit }
    if st1.is_connected && st1.model_available then
      match o.phi3Result with
      | some resp =>
        if resp == "" then
          ("I'm having trouble generating a response. Could you please try again?", st1, true)
        else
          (resp, { st1 with cache := cacheInsert st1.cache key resp st1.cacheMaxSize }, true)
      | none =>
        ("I'm having trouble generating a response. Could you please try again?", st1, true)
    else
      ("I'm unable to connect to the AI model. Please check if Ollama is running and try again.", st1, false)

/-! ### Conversation state machine (`main()` in `app.py`) -/

inductive Stage
  | greeting | get_name | get_email | get_phone | get_experience | get_position
  | get_location | get_tech_stack | tech_questions | question_retry_choice
  | rephrase_skill | completed | ended
  deriving Repr, DecidableEq

inductive Role
  | user | assistant
  deriving Repr, DecidableEq

/-- One chat message (sentiment metadata is presentation-only and omitted). -/
structure Message where
  role : Role
  content : String
  deriving Repr, DecidableEq

/-- Python `st.session_state.candidate_info`.  The `answers` dict always holds the
keys `Q1..Qn` in order (it is only ever reset or extended with the next
`Q{len+1}` key), so it is modelled as the ordered list of answer values.
The underscore-prefixed working keys of the dict are ordinary fields here;
absent keys are the defaults.  `asked_questions` is stored by the source as
`list(set(...))` whose iteration order CPython leaves unspecified; only
membership is ever used, and we keep insertion order. -/
structure CandidateInfo where
  name : Option String := none
  email : Option String := none
  phone : Option String := none
  experience : Option String := none
  position : Option String := none
  location : Option String := none
  tech_stack : Option String := none
  tech_questions : List String := []
  answers : List String := []
  skills : List String := []
  current_skill_idx : Nat := 0
  asked_questions : List String := []
  mongo_save_status : Option Bool := none
  deriving Repr, DecidableEq

/-- The per-session state the turn handler reads and writes.
`failedSkill`/`failedSkillIdx` model `st.session_state.get("failed_skill")` /
`get("failed_skill_idx")`; nothing in this version of the app ever sets them
(the `question_retry_choice`/`rephrase_skill` states are dead code), so they
stay `none`; arithmetic on the absent index would raise in Python and is
totalised with `getD 0` here. -/
structure SessionState where
  stage : Stage
  info : CandidateInfo
  messages : List Message
  mongo_ok : Bool
  failedSkill : Option String := none
  failedSkillIdx : Option Nat := none
  deriving Repr, DecidableEq

/-- The external effects one turn can consume: the advisory validation
response (at most one per turn), the question-generation outcomes, and the
success of the final MongoDB insert. -/
structure TurnOracle where
  validateResp : Option String
  genResp : Nat → Nat → Option String
  mongoFinalOk : Bool

/-- Python `validate_with_llm` reduced to its decision on the (already caught)
response: true iff the call returned a string whose stripped, lowered form
starts with `"yes"` (the `answer == 'yes'` disjunct of the source is
subsumed).  `none` models an exception from the call. -/
def validateWithLLM (resp : Option String) : Bool :=
  match resp with
  | none => false
  | some r =>
    if r == "" then false
    else
      let answer := pyLower (pyStrip r)
      pyStartsWith answer "yes" || answer == "yes"

/-- Python truthiness of an optional string (`None` and `""` are falsy). -/
def optStr : Option String → Option String
  | some v => if v = "" then none else some v
  | none => none

def nameOf (i : CandidateInfo) : Option String := optStr i.name

def posOf (i : CandidateInfo) : Option String := optStr i.position

/-- Pattern `"{name}, "` when the name is truthy, else `""`. -/
def namePart (i : CandidateInfo) : String :=
  match nameOf i with
  | some n => n ++ ", "
  | none => ""

/-- Pattern `"we'll be in touch regarding the {position} position. "` when the
position is truthy, else `""`. -/
def posPart (i : CandidateInfo) : String :=
  match posOf i with
  | some p => "we'll be in touch regarding the " ++ p ++ " position. "
  | none => ""

def exitKeywords : List String := ["exit", "quit", "goodbye", "bye"]

def isExitKeyword (t : String) : Bool := exitKeywords.contains (pyLower t)

/-- The farewell of the exit branch, chosen by `_mongo_save_status`. -/
def closingMsg (i : CandidateInfo) : String :=
  match i.mongo_save_status with
  | some true =>
    "Thank you, your answers have been saved. " ++ namePart i ++ posPart i
      ++ "You can close the window now."
  | some false => "Error in storing your answers. Please try again later."
  | none =>
    "Thank you for your time! " ++ namePart i ++ posPart i ++ "Have a great day! 👋"

/-- Append the user message unless the last message is the same user text
(the dedup check before the state machine). -/
def appendUserDedup (msgs : List Message) (t : String) : List Message :=
  match msgs.getLast? with
  | some m => if m.role == Role.user && m.content == t then msgs else msgs ++ [⟨Role.user, t⟩]
  | none => msgs ++ [⟨Role.user, t⟩]

/-! Outgoing prompts (the exact f-strings of the source, with the generic
variant when the name is falsy). -/

def emailPromptMsg (i : CandidateInfo) : String :=
  match nameOf i with
  | some n => "Thanks, " ++ n ++ "! What's your email address?"
  | none => "Thanks! What's your email address?"

def phonePromptMsg (i : CandidateInfo) : String :=
  match nameOf i with
  | some n => "Great, " ++ n ++ ". And your phone number?"
  | none => "And your phone number?"

def expPromptMsg (i : CandidateInfo) : String :=
  match nameOf i with
  | some n => "Thank you, " ++ n ++ ". How many years of professional experience do you have?"
  | none => "How many years of professional experience do you have?"

def positionPromptMsg (i : CandidateInfo) : String :=
  match nameOf i with
  | some n => "Thanks, " ++ n ++ ". What position(s) are you interested in?"
  | none => "What position(s) are you interested in?"

def locationPromptMsg (i : CandidateInfo) : String :=
  match nameOf i with
  | some n => "Thank you, " ++ n ++ ". Where are you currently located? (City, Country)"
  | none => "Where are you currently located? (City, Country)"

def techStackPromptMsg (i : CandidateInfo) : String :=
  match nameOf i with
  | some n => "Thanks, " ++ n ++ ". Please list your tech stack (programming languages, frameworks, databases, tools)."
  | none => "Please list your tech stack (programming languages, frameworks, databases, tools)."

def firstQuestionMsg (i : CandidateInfo) (q : String) : String :=
  match nameOf i with
  | some n => "Great, " ++ n ++ "! Here is your technical question:\n\n" ++ q
  | none => "Great! Here is your technical question:\n\n" ++ q

def nextQuestionMsg (i : CandidateInfo) (q : String) : String :=
  match nameOf i with
  | some n => "Thank you, " ++ n ++ "! Here is your next technical question:\n\n" ++ q
  | none => "Thank you! Here is your next technical question:\n\n" ++ q

def completionMsg (i : CandidateInfo) : String :=
  "Thank you for answering all the questions! " ++ namePart i ++ posPart i
    ++ "If you have anything else to add, let me know. Otherwise, type 'exit' to finish."

def fallbackMsg (i : CandidateInfo) : String :=
  "I'm here to help with your screening. " ++ namePart i
    ++ "please answer the previous question or type 'exit' to finish."
    ++ (match posOf i with
        | some p => " (Position: " ++ p ++ ")"
        | none => "")

/-! Rejection prompts. -/

def nameRejectMsg : String := "Please enter a valid full name (no numbers or special characters)."

def emailRejectMsg : String := "Please enter a valid email address (e.g., user@email.com)."

def phoneRejectAlphaMsg : String := "Please enter a valid phone number (digits only, no letters)."

def phoneRejectMsg : String := "Please enter a valid phone number (digits only, no letters, and a reasonable length)."

def expRejectMsg : String := "Please enter a valid number of years of professional experience (e.g., 3, 5, 10)."

def positionRejectMsg : String := "Please enter a valid job position or role (at least two words, only letters and spaces, minimum 5 characters, no symbols or numbers)."

def locationRejectMsg : String := "Please enter a valid location (e.g., City, Country). Use only letters, spaces, commas, and hyphens."

def techStackRejectMsg : String := "Please enter at least one valid skill in your tech stack (e.g., python, fastapi, langchain)."

def techTroubleMsg : String := "I'm having trouble generating technical questions for your tech stack. Please try again or rephrase your tech stack."

def invalidChoiceMsg : String := "Invalid choice. Please type 'retry', 'skip', or 'rephrase'."

def skillNameRejectMsg : String := "Please enter a valid skill name."

/-! ### Per-stage turn handlers (the `elif state == ...` branches).
Each takes the stripped user text `t` and the message list `msgs` with the
user message already appended; a rejection path models `st.rerun()` after
appending the corrective message (state and record untouched). -/

def handleName (o : TurnOracle) (s : SessionState) (t : String) (msgs : List Message) :
    SessionState :=
  if !validateWithLLM o.validateResp && !looks_like_name t then
    { s with messages := msgs ++ [⟨Role.assistant, nameRejectMsg⟩] }
  else
    let info := { s.info with name := some t }
    { s with info := info, messages := msgs ++ [⟨Role.assistant, emailPromptMsg info⟩],
             stage := Stage.get_email }

def handleEmail (o : TurnOracle) (s : SessionState) (t : String) (msgs : List Message) :
    SessionState :=
  if !validateWithLLM o.validateResp && !looks_like_email t then
    { s with messages := msgs ++ [⟨Role.assistant, emailRejectMsg⟩] }
  else
    let info := { s.info with email := some t }
    { s with info := info, messages := msgs ++ [⟨Role.assistant, phonePromptMsg info⟩],
             stage := Stage.get_phone }

def handlePhone (o : TurnOracle) (s : SessionState) (t : String) (msgs : List Message) :
    SessionState :=
  if t.data.any isAsciiAlpha then
    { s with messages := msgs ++ [⟨Role.assistant, phoneRejectAlphaMsg⟩] }
  else if !validateWithLLM o.validateResp && !looks_like_phone t then
    { s with messages := msgs ++ [⟨Role.assistant, phoneRejectMsg⟩] }
  else
    let info := { s.info with phone := some t }
    { s with info := info, messages := msgs ++ [⟨Role.assistant, expPromptMsg info⟩],
             stage := Stage.get_experience }

def handleExperience (o : TurnOracle) (s : SessionState) (t : String) (msgs : List Message) :
    SessionState :=
  if !validateWithLLM o.validateResp && !looks_like_experience t then
    { s with messages := msgs ++ [⟨Role.assistant, expRejectMsg⟩] }
  else
    let info := { s.info with experience := some t }
    { s with info := info, messages := msgs ++ [⟨Role.assistant, positionPromptMsg info⟩],
             stage := Stage.get_position }

def handlePosition (s : SessionState) (t : String) (msgs : List Message) : SessionState :=
  if !is_valid_position t then
    { s with messages := msgs ++ [⟨Role.assistant, positionRejectMsg⟩] }
  else
    let info := { s.info with position := some (pyStrip t) }
    { s with info := info, messages := msgs ++ [⟨Role.assistant, locationPromptMsg info⟩],
             stage := Stage.get_location }

def handleLocation (s : SessionState) (t : String) (msgs : List Message) : SessionState :=
  if !is_valid_location t then
    { s with messages := msgs ++ [⟨Role.assistant, locationRejectMsg⟩] }
  else
    let info := { s.info with location := some t }
    { s with info := info, messages := msgs ++ [⟨Role.assistant, techStackPromptMsg info⟩],
             stage := Stage.get_tech_stack }

/-- The `get_tech_stack` branch.  Note the source mutates `tech_stack`,
`tech_questions` and `answers` before validating the skill list. -/
def handleTechStack (o : TurnOracle) (s : SessionState) (t : String) (msgs : List Message) :
    SessionState :=
  let info1 := { s.info with tech_stack := some t, tech_questions := [], answers := [] }
  let skills := parseSkills t
  if skills.isEmpty || skills.any (fun sk => decide (sk.length < 2)) then
    { s with info := info1, messages := msgs ++ [⟨Role.assistant, techStackRejectMsg⟩] }
  else
    let info2 := { info1 with skills := skills, current_skill_idx := 0 }
    let p := generateAll o.genResp skills
    let qs := p.1.map Prod.fst
    let info3 := { info2 with tech_questions := qs, asked_questions := p.2,
                              current_skill_idx := 0 }
    match qs with
    | [] => { s with info := info3, messages := msgs ++ [⟨Role.assistant, techTroubleMsg⟩] }
    | q0 :: _ =>
      if q0 = "" then
        { s with info := info3, messages := msgs ++ [⟨Role.assistant, techTroubleMsg⟩] }
      else
        { s with info := info3,
                 messages := msgs ++ [⟨Role.assistant, firstQuestionMsg info3 q0⟩],
                 stage := Stage.tech_questions }

/-- The `tech_questions` branch: record the answer to the next unanswered
question; emit the next question or complete, persist, and clear the
question list. -/
def handleTechQuestions (o : TurnOracle) (s : SessionState) (t : String)
    (msgs : List Message) : SessionState :=
  let qlist := s.info.tech_questions
  let answered := s.info.answers.length
  if answered < qlist.length then
    let info1 := { s.info with answers := s.info.answers ++ [t] }
    if answered + 1 < qlist.length then
      { s with info := info1,
               messages := msgs ++
                 [⟨Role.assistant, nextQuestionMsg s.info (qlist.getD (answered + 1) "")⟩] }
    else
      let info2 := { info1 with current_skill_idx := qlist.length }
      let info3 :=
        if s.mongo_ok then { info2 with mongo_save_status := some o.mongoFinalOk } else info2
      { s with info := { info3 with tech_questions := [] },
               messages := msgs ++ [⟨Role.assistant, completionMsg s.info⟩],
               stage := Stage.completed }
  else
    { s with messages := msgs }

def handleRetryChoice (s : SessionState) (t : String) (msgs : List Message) : SessionState :=
  let choice := pyStrip (pyLower t)
  let idx := s.failedSkillIdx.getD 0
  if choice = "retry" then
    { s with info := { s.info with current_skill_idx := idx }, stage := Stage.tech_questions }
  else if choice = "skip" then
    { s with info := { s.info with current_skill_idx := idx + 1 },
             stage := Stage.tech_questions }
  else if choice = "rephrase" then
    { s with info := { s.info with current_skill_idx := idx },
             messages := msgs ++
               [⟨Role.assistant, "Please enter a new skill name to replace '" ++
                 (match s.failedSkill with
                  | some sk => sk
                  | none => "None") ++ "':"⟩],
             stage := Stage.rephrase_skill }
  else
    { s with info := { s.info with current_skill_idx := idx },
             messages := msgs ++ [⟨Role.assistant, invalidChoiceMsg⟩] }

def handleRephraseSkill (s : SessionState) (t : String) (msgs : List Message) : SessionState :=
  let new_skill := pyStrip t
  let idx := s.failedSkillIdx.getD 0
  if new_skill = "" then
    { s with messages := msgs ++ [⟨Role.assistant, skillNameRejectMsg⟩] }
  else
    { s with info := { s.info with skills := s.info.skills.set idx new_skill },
             messages := msgs ++
               [⟨Role.assistant, "Skill updated to '" ++ new_skill ++
                 "'. Trying to generate a question..."⟩],
             stage := Stage.tech_questions }

/-- The trailing `else` of the state machine (greeting / completed / ended /
any unexpected state): re-orient without mutating state. -/
def handleFallback (s : SessionState) (msgs : List Message) : SessionState :=
  { s with messages := msgs ++ [⟨Role.assistant, fallbackMsg s.info⟩] }

/-- One processed turn of `main()`: empty (stripped) input is not processed;
exit keywords short-circuit every stage; otherwise the user message is
appended (deduplicated) and the current stage's branch runs. -/
def step (o : TurnOracle) (s : SessionState) (input : String) : SessionState :=
  let t := pyStrip input
  if t = "" then s
  else if isExitKeyword t then
    { s with messages := s.messages ++ [⟨Role.user, t⟩, ⟨Role.assistant, closingMsg s.info⟩],
             stage := Stage.ended }
  else
    let msgs := appendUserDedup s.messages t
    match s.stage with
    | Stage.get_name => handleName o s t msgs
    | Stage.get_email => handleEmail o s t msgs
    | Stage.get_phone => handlePhone o s t msgs
    | Stage.get_experience => handleExperience o s t msgs
    | Stage.get_position => handlePosition s t msgs
    | Stage.get_location => handleLocation s t msgs
    | Stage.get_tech_stack => handleTechStack o s t msgs
    | Stage.tech_questions => handleTechQuestions o s t msgs
    | Stage.question_retry_choice => handleRetryChoice s t msgs
    | Stage.rephrase_skill => handleRephraseSkill s t msgs
    | Stage.greeting => handleFallback s msgs
    | Stage.completed => handleFallback s msgs
    | Stage.ended => handleFallback s msgs

def greetingMsg : String :=
  "👋 Hello! Welcome to TalentScout. I'm your AI hiring assistant. I'll guide you through a quick screening to help match you with the best opportunities. You can type 'exit' or 'quit' anytime to end the chat.\n\nLet's get started! What's your full name?"

/-- The session right after initialisation: greeting emitted, stage already
advanced to `get_name`; `b` is whether the MongoDB connection check
succeeded. -/
def initState (b : Bool) : SessionState :=
  { stage := Stage.get_name, info := {}, messages := [⟨Role.assistant, greetingMsg⟩],
    mongo_ok := b }

/-- The states a session can be in: the initial state and everything the
turn handler can produce from a reachable state, for any oracle and input. -/
inductive Reachable : SessionState → Prop
  | init : ∀ b, Reachable (initState b)
  | step : ∀ (o : TurnOracle) (s : SessionState) (input : String),
      Reachable s → Reachable (step o s input)

/-- An oracle for a session in which the text-completion service always
fails and MongoDB is unreachable. -/
def noLLM : TurnOracle :=
  { validateResp := none, genResp := fun _ _ => none, mongoFinalOk := false }

/-! A concrete session used as a witness/counterexample source: every
validator decision falls to the local checks (the service is down). -/

def demo1 : SessionState := step noLLM (initState false) "John Smith"

def demo2 : SessionState := step noLLM demo1 "john@example.com"

def demo3 : SessionState := step noLLM demo2 "1234567"

def demo4 : SessionState := step noLLM demo3 "5"

def demo5 : SessionState := step noLLM demo4 "Software Engineer"

def demo6 : SessionState := step noLLM demo5 "Pune, India"

def demo7 : SessionState := step noLLM demo6 "python"

def demo8 : SessionState := step noLLM demo7 "I use decorators daily"

/-! ### Derived notions used by the statements -/

/-- The field-collection stages, in their fixed order. -/
def fieldStages : List Stage :=
  [Stage.get_name, Stage.get_email, Stage.get_phone, Stage.get_experience,
   Stage.get_position, Stage.get_location]

/-- The local (non-LLM) validator consulted at each field stage. -/
def localValidator : Stage → String → Bool
  | Stage.get_name, t => looks_like_name t
  | Stage.get_email, t => looks_like_email t
  | Stage.get_phone, t => looks_like_phone t
  | Stage.get_experience, t => looks_like_experience t
  | Stage.get_position, t => is_valid_position t
  | Stage.get_location, t => is_valid_location t
  | _, _ => false

/-- The fixed successor of each field stage. -/
def nextStage : Stage → Stage
  | Stage.get_name => Stage.get_email
  | Stage.get_email => Stage.get_phone
  | Stage.get_phone => Stage.get_experience
  | Stage.get_experience => Stage.get_position
  | Stage.get_position => Stage.get_location
  | Stage.get_location => Stage.get_tech_stack
  | st => st

/-- The record update an accepted value performs at each field stage
(`get_position` stores the re-stripped text, as the source does). -/
def setField : Stage → CandidateInfo → String → CandidateInfo
  | Stage.get_name, i, t => { i with name := some t }
  | Stage.get_email, i, t => { i with email := some t }
  | Stage.get_phone, i, t => { i with phone := some t }
  | Stage.get_experience, i, t => { i with experience := some t }
  | Stage.get_position, i, t => { i with position := some (pyStrip t) }
  | Stage.get_location, i, t => { i with location := some t }
  | _, i, _ => i

/-- The corrective message(s) a rejected value can produce at each field
stage (`get_phone` has the letters pre-check message and the general one). -/
def correctiveMsgs : Stage → List String
  | Stage.get_name => [nameRejectMsg]
  | Stage.get_email => [emailRejectMsg]
  | Stage.get_phone => [phoneRejectAlphaMsg, phoneRejectMsg]
  | Stage.get_experience => [expRejectMsg]
  | Stage.get_position => [positionRejectMsg]
  | Stage.get_location => [locationRejectMsg]
  | _ => []

/-- The answers/questions size relation that actually holds at every
reachable point: the raw inequality can only be broken by the completion
transition, which clears the question list. -/
def answersInv (s : SessionState) : Prop :=
  s.info.answers.length ≤ s.info.tech_questions.length ∨
    ((s.stage = Stage.completed ∨ s.stage = Stage.ended) ∧ s.info.tech_questions = [])

/-! Concrete fixtures for the cache claims. -/

def mgrInit : MgrState :=
  { cache := [], cacheMaxSize := 10, is_connected := true, model_available := true }

def genOracleOk : GenOracle :=
  { connAfterInit := true, modelAfterInit := true,
    phi3Result := some "What is a decorator in Python?" }

/-! ### Helper lemmas: characters and stripping -/

theorem dropWhile_eq_self_of_false {α : Type} {p : α → Bool} {l : List α}
    (h : ∀ c ∈ l, p c = false) : l.dropWhile p = l := by
  cases l with
  | nil => rfl
  | cons c rest => simp [List.dropWhile_cons, h c (by simp)]

theorem takeWhile_eq_self_of_true {α : Type} {p : α → Bool} :
    ∀ {l : List α}, (∀ c ∈ l, p c = true) → l.takeWhile p = l := by
  intro l
  induction l with
  | nil => intro _; rfl
  | cons c rest ih =>
    intro h
    rw [List.takeWhile_cons, if_pos (h c (by simp))]
    rw [ih fun x hx => h x (by simp [hx])]

theorem mem_dropWhile_of_false {α : Type} {p : α → Bool} {l : List α} {c : α}
    (hm : c ∈ l) (hc : p c = false) : c ∈ l.dropWhile p := by
  rw [← List.takeWhile_append_dropWhile p l] at hm
  rcases List.mem_append.1 hm with h | h
  · have := List.mem_takeWhile_imp h
    rw [hc] at this
    exact absurd this (by simp)
  · exact h

theorem pyStripList_sublist (cs : List Char) : List.Sublist (pyStripList cs) cs := by
  unfold pyStripList
  have h1 : List.Sublist ((cs.dropWhile pyIsSpace).reverse.dropWhile pyIsSpace)
      (cs.dropWhile pyIsSpace).reverse := List.dropWhile_sublist _
  have h2 := h1.reverse
  rw [List.reverse_reverse] at h2
  exact h2.trans (List.dropWhile_sublist _)

theorem mem_pyStripList {c : Char} {cs : List Char} (hm : c ∈ cs)
    (hc : pyIsSpace c = false) : c ∈ pyStripList cs := by
  unfold pyStripList
  have h1 : c ∈ cs.dropWhile pyIsSpace := mem_dropWhile_of_false hm hc
  have h2 : c ∈ (cs.dropWhile pyIsSpace).reverse := List.mem_reverse.2 h1
  have h3 := mem_dropWhile_of_false h2 hc
  exact List.mem_reverse.2 h3

theorem pyStripList_eq_self {cs : List Char} (h : ∀ c ∈ cs, pyIsSpace c = false) :
    pyStripList cs = cs := by
  unfold pyStripList
  rw [dropWhile_eq_self_of_false h,
      dropWhile_eq_self_of_false (fun c hc => h c (List.mem_reverse.1 hc)),
      List.reverse_reverse]

theorem not_space_of_alpha {c : Char} (h : isAsciiAlpha c = true) : pyIsSpace c = false := by
  simp only [isAsciiAlpha, isAsciiUpper, isAsciiLower, pyIsSpace, Bool.or_eq_true,
    Bool.and_eq_true, decide_eq_true_eq, Bool.or_eq_false_iff, decide_eq_false_iff_not] at *
  omega

theorem not_alpha_of_digit {c : Char} (h : isAsciiDigit c = true) : isAsciiAlpha c = false := by
  simp only [isAsciiAlpha, isAsciiUpper, isAsciiLower, isAsciiDigit, Bool.or_eq_true,
    Bool.and_eq_true, decide_eq_true_eq, Bool.or_eq_false_iff, Bool.and_eq_false_iff,
    decide_eq_false_iff_not] at *
  omega

theorem not_digit_of_alpha {c : Char} (h : isAsciiAlpha c = true) : isAsciiDigit c = false := by
  simp only [isAsciiAlpha, isAsciiUpper, isAsciiLower, isAsciiDigit, Bool.or_eq_true,
    Bool.and_eq_true, decide_eq_true_eq, Bool.and_eq_false_iff, decide_eq_false_iff_not] at *
  omega

theorem alpha_of_toLower_lower {c : Char} (h : isAsciiLower c.toLower = true) :
    isAsciiAlpha c = true := by
  unfold Char.toLower at h
  by_cases hr : c.toNat ≥ 65 ∧ c.toNat ≤ 90
  · simp only [isAsciiAlpha, isAsciiUpper, Bool.or_eq_true, Bool.and_eq_true,
      decide_eq_true_eq]
    left
    exact ⟨hr.1, hr.2⟩
  · rw [if_neg hr] at h
    simp only [isAsciiAlpha, Bool.or_eq_true]
    right
    exact h

theorem wordsAux_length_le_one {cs : List Char} (h : ∀ c ∈ cs, pyIsSpace c = false) :
    ∀ acc : List Char, (wordsAux cs acc).length ≤ 1 := by
  induction cs with
  | nil =>
    intro acc
    simp only [wordsAux]
    split <;> simp
  | cons c rest ih =>
    intro acc
    simp only [wordsAux, h c (by simp)]
    exact ih (fun x hx => h x (by simp [hx])) _

theorem wordCountL_le_one {cs : List Char} (h : ∀ c ∈ cs, pyIsSpace c = false) :
    wordCountL cs ≤ 1 :=
  wordsAux_length_le_one h []

theorem alpha_of_lower_eq {t : String} {kw : List Char}
    (hk : ∀ d ∈ kw, isAsciiLower d = true) (h : t.data.map Char.toLower = kw) :
    ∀ c ∈ t.data, isAsciiAlpha c = true := by
  intro c hc
  have h1 : c.toLower ∈ kw := by
    rw [← h]
    exact List.mem_map_of_mem _ hc
  exact alpha_of_toLower_lower (hk _ h1)

/-- An exit keyword (case-insensitive) is a non-empty, purely alphabetic
string. -/
theorem exit_alpha {t : String} (h : isExitKeyword t = true) :
    t.data ≠ [] ∧ ∀ c ∈ t.data, isAsciiAlpha c = true := by
  have hmem : pyLower t ∈ exitKeywords := by
    unfold isExitKeyword List.contains at h
    exact List.mem_of_elem_eq_true h
  have hmap : ∀ kw : String, pyLower t = kw →
      (∀ d ∈ kw.data, isAsciiLower d = true) →
      t.data ≠ [] ∧ ∀ c ∈ t.data, isAsciiAlpha c = true := by
    intro kw hkw hlow
    have hdata : t.data.map Char.toLower = kw.data := by
      have := congrArg String.data hkw
      simpa [pyLower] using this
    refine ⟨?_, alpha_of_lower_eq hlow hdata⟩
    intro hnil
    rw [hnil] at hdata
    have hker : kw ∈ exitKeywords := by rw [← hkw]; exact hmem
    have hd : kw.data = [] := hdata.symm
    revert hd
    have hall : ∀ x ∈ exitKeywords, x.data ≠ [] := by decide
    exact hall kw hker
  simp only [exitKeywords, List.mem_cons, List.not_mem_nil, or_false] at hmem
  rcases hmem with hkw | hkw | hkw | hkw
  · exact hmap _ hkw (by decide)
  · exact hmap _ hkw (by decide)
  · exact hmap _ hkw (by decide)
  · exact hmap _ hkw (by decide)

theorem udigits?_eq_none_of_alpha : ∀ {l : List Char},
    (∀ c ∈ l, isAsciiAlpha c = true) → udigits? l = none := by
  intro l h
  match l with
  | [] => rfl
  | [c] => simp [udigits?, not_digit_of_alpha (h c (by simp))]
  | c :: c2 :: rest => simp [udigits?, not_digit_of_alpha (h c (by simp))]

theorem pyFloat?_eq_none_of_alpha {t : String}
    (h : ∀ c ∈ t.data, isAsciiAlpha c = true) : pyFloat? t = none := by
  obtain ⟨cs⟩ := t
  have hcs : ∀ c ∈ cs, isAsciiAlpha c = true := h
  have hst : pyStripList cs = cs :=
    pyStripList_eq_self (fun c hc => not_space_of_alpha (hcs c hc))
  simp only [pyFloat?]
  rw [hst]
  cases cs with
  | nil => rfl
  | cons c0 rest =>
    have hc0 : isAsciiAlpha c0 = true := hcs c0 (by simp)
    have h43 : ¬(c0.toNat = 43) := by
      simp only [isAsciiAlpha, isAsciiUpper, isAsciiLower, Bool.or_eq_true,
        Bool.and_eq_true, decide_eq_true_eq] at hc0
      omega
    have h45 : ¬(c0.toNat = 45) := by
      simp only [isAsciiAlpha, isAsciiUpper, isAsciiLower, Bool.or_eq_true,
        Bool.and_eq_true, decide_eq_true_eq] at hc0
      omega
    dsimp only
    rw [if_neg h43, if_neg h45]
    have hmant : ∀ c ∈ (c0 :: rest).takeWhile
        (fun c => !(c.toNat = 101) && !(c.toNat = 69)), isAsciiAlpha c = true :=
      fun c hc => hcs c ((List.takeWhile_sublist _).subset hc)
    have hip : ((c0 :: rest).takeWhile
        (fun c => !(c.toNat = 101) && !(c.toNat = 69))).takeWhile
          (fun c => !(c.toNat = 46)) = (c0 :: rest).takeWhile
            (fun c => !(c.toNat = 101) && !(c.toNat = 69)) := by
      apply takeWhile_eq_self_of_true
      intro c hc
      have := hmant c hc
      simp only [isAsciiAlpha, isAsciiUpper, isAsciiLower, Bool.or_eq_true,
        Bool.and_eq_true, decide_eq_true_eq] at this
      simp only [Bool.not_eq_true', decide_eq_false_iff_not]
      omega
    rw [hip, List.drop_length, udigits?_eq_none_of_alpha hmant]

theorem looks_like_name_of_alpha {t : String} (h : ∀ c ∈ t.data, isAsciiAlpha c = true) :
    looks_like_name t = false := by
  have hns : ∀ c ∈ t.data, pyIsSpace c = false := fun c hc => not_space_of_alpha (h c hc)
  have hst : pyStripList t.data = t.data := pyStripList_eq_self hns
  simp only [looks_like_name, hst]
  rw [decide_eq_false (by have := wordCountL_le_one hns; omega : ¬(2 ≤ wordCountL t.data))]
  simp

theorem looks_like_email_of_alpha {t : String} (h : ∀ c ∈ t.data, isAsciiAlpha c = true) :
    looks_like_email t = false := by
  have hns : ∀ c ∈ t.data, pyIsSpace c = false := fun c hc => not_space_of_alpha (h c hc)
  have hst : pyStripList t.data = t.data := pyStripList_eq_self hns
  simp only [looks_like_email, hst]
  have htk : t.data.takeWhile (fun c => !(c.toNat = 64)) = t.data := by
    apply takeWhile_eq_self_of_true
    intro c hc
    have := h c hc
    simp only [isAsciiAlpha, isAsciiUpper, isAsciiLower, Bool.or_eq_true, Bool.and_eq_true,
      decide_eq_true_eq] at this
    simp only [Bool.not_eq_true', decide_eq_false_iff_not]
    omega
  rw [htk, List.drop_length]

theorem looks_like_phone_of_alpha {t : String} (hne : t.data ≠ [])
    (h : ∀ c ∈ t.data, isAsciiAlpha c = true) : looks_like_phone t = false := by
  have hns : ∀ c ∈ t.data, pyIsSpace c = false := fun c hc => not_space_of_alpha (h c hc)
  have hst : pyStripList t.data = t.data := pyStripList_eq_self hns
  simp only [looks_like_phone, hst]
  have hf : t.data.filter (fun c => !(c.toNat = 32) && !(c.toNat = 45)) = t.data := by
    rw [List.filter_eq_self]
    intro c hc
    have := h c hc
    simp only [isAsciiAlpha, isAsciiUpper, isAsciiLower, Bool.or_eq_true, Bool.and_eq_true,
      decide_eq_true_eq] at this
    simp only [Bool.and_eq_true, Bool.not_eq_true', decide_eq_false_iff_not]
    omega
  rw [hf]
  have hall : t.data.all isAsciiDigit = false := by
    cases hd : t.data.all isAsciiDigit
    · rfl
    · obtain ⟨c0, hc0⟩ := List.exists_mem_of_ne_nil t.data hne
      have := (List.all_eq_true.1 hd) c0 hc0
      rw [not_digit_of_alpha (h c0 hc0)] at this
      exact absurd this (by simp)
  rw [hall]
  simp

theorem looks_like_experience_of_alpha {t : String}
    (h : ∀ c ∈ t.data, isAsciiAlpha c = true) : looks_like_experience t = false := by
  have hns : ∀ c ∈ t.data, pyIsSpace c = false := fun c hc => not_space_of_alpha (h c hc)
  have hst : pyStrip t = t := by
    unfold pyStrip
    rw [pyStripList_eq_self hns]
  simp only [looks_like_experience, hst, pyFloat?_eq_none_of_alpha h]

theorem is_valid_position_of_alpha {t : String} (h : ∀ c ∈ t.data, isAsciiAlpha c = true) :
    is_valid_position t = false := by
  have hns : ∀ c ∈ t.data, pyIsSpace c = false := fun c hc => not_space_of_alpha (h c hc)
  have hst : pyStripList t.data = t.data := pyStripList_eq_self hns
  simp only [is_valid_position, hst]
  rw [decide_eq_false (by have := wordCountL_le_one hns; omega : ¬(2 ≤ wordCountL t.data))]
  simp

theorem is_valid_location_of_alpha {t : String} (h : ∀ c ∈ t.data, isAsciiAlpha c = true) :
    is_valid_location t = false := by
  have hns : ∀ c ∈ t.data, pyIsSpace c = false := fun c hc => not_space_of_alpha (h c hc)
  have hst : pyStripList t.data = t.data := pyStripList_eq_self hns
  simp only [is_valid_location, hst]
  rw [decide_eq_false (by have := wordCountL_le_one hns; omega : ¬(2 ≤ wordCountL t.data))]
  simp

/-- No exit keyword is accepted by any of the local validators. -/
theorem exit_not_validated {t : String} (h : isExitKeyword t = true) (st : Stage) :
    localValidator st t = false := by
  obtain ⟨hne, halpha⟩ := exit_alpha h
  cases st <;> simp only [localValidator]
  · exact looks_like_name_of_alpha halpha
  · exact looks_like_email_of_alpha halpha
  · exact looks_like_phone_of_alpha hne halpha
  · exact looks_like_experience_of_alpha halpha
  · exact is_valid_position_of_alpha halpha
  · exact is_valid_location_of_alpha halpha
/-- A value the phone validator accepts contains no (ASCII) letters, so it
also passes the letters pre-check of the phone branch. -/
theorem phone_no_alpha {t : String} (h : looks_like_phone t = true) :
    t.data.any isAsciiAlpha = false := by
  cases ha : t.data.any isAsciiAlpha
  · rfl
  · exfalso
    obtain ⟨c, hc, hcalpha⟩ := List.any_eq_true.1 ha
    simp only [looks_like_phone, Bool.and_eq_true] at h
    have hmem : c ∈ pyStripList t.data := mem_pyStripList hc (not_space_of_alpha hcalpha)
    have hcf : c ∈ (pyStripList t.data).filter (fun c => !(c.toNat = 32) && !(c.toNat = 45)) := by
      rw [List.mem_filter]
      refine ⟨hmem, ?_⟩
      simp only [isAsciiAlpha, isAsciiUpper, isAsciiLower, Bool.or_eq_true, Bool.and_eq_true,
        decide_eq_true_eq] at hcalpha
      simp only [Bool.and_eq_true, Bool.not_eq_true', decide_eq_false_iff_not]
      omega
    have hdig := List.all_eq_true.1 h.1.1.2 c hcf
    rw [not_digit_of_alpha hcalpha] at hdig
    exact absurd hdig (by simp)

/-! ### Question-source lemmas -/

theorem usableResult_spec {asked : List String} {r : Option String} {q : String}
    (h : usableResult asked r = some q) :
    5 < q.length ∧ q ∉ asked := by
  match r with
  | none => exact absurd h (by simp [usableResult])
  | some raw =>
    simp only [usableResult] at h
    split at h
    · split at h
      · exact absurd h (by simp)
      · rename_i hlen hmem
        obtain rfl : pyStrip raw = q := by simpa using h
        refine ⟨by simpa using hlen, ?_⟩
        intro hq
        exact hmem (List.elem_eq_true_of_mem hq)
    · exact absurd h (by simp)

theorem str_ne_empty_of_length {q : String} (h : 0 < q.length) : q ≠ "" := by
  intro hq
  rw [hq] at h
  exact absurd h (by decide)

theorem bank_values_ne_empty {k lq : String} (h : bankLookup k = some lq) : lq ≠ "" := by
  simp only [bankLookup, Option.map_eq_some'] at h
  obtain ⟨e, he, rfl⟩ := h
  have hmem := List.mem_of_find?_eq_some he
  have hv : ∀ x ∈ LOCAL_QUESTION_BANK, x.2 ≠ "" := by decide
  exact hv e hmem

theorem fallbackQuestion_ne_empty (skill : String) : fallbackQuestion skill ≠ "" := by
  intro h
  have hd := congrArg String.data h
  simp only [fallbackQuestion, String.data_append, List.append_eq_nil] at hd
  exact (List.cons_ne_nil _ _) hd.1.1.1.1

/-- Every outcome of the per-skill question loop: at most 3 service calls, a
non-empty question, and the question is the generated text, a bank entry for
the lower-cased skill, or the generic fallback; a generated question is never
one of the already-asked ones. -/
theorem get_question_spec (gen : Nat → Option String) (asked : List String) (skill : String) :
    (get_question gen asked skill).attempts ≤ 3 ∧
    (get_question gen asked skill).question ≠ "" ∧
    ((get_question gen asked skill).generated = true →
      (get_question gen asked skill).question ∉ asked) ∧
    ((get_question gen asked skill).generated = true ∨
      bankLookup (pyLower skill) = some (get_question gen asked skill).question ∨
      (get_question gen asked skill).question = fallbackQuestion skill) := by
  unfold get_question
  cases h0 : usableResult asked (gen 0) with
  | some q =>
    obtain ⟨hl, hm⟩ := usableResult_spec h0
    dsimp only
    exact ⟨by omega, str_ne_empty_of_length (by omega), fun _ => hm, Or.inl rfl⟩
  | none =>
    cases h1 : usableResult asked (gen 1) with
    | some q =>
      obtain ⟨hl, hm⟩ := usableResult_spec h1
      dsimp only
      exact ⟨by omega, str_ne_empty_of_length (by omega), fun _ => hm, Or.inl rfl⟩
    | none =>
      cases h2 : usableResult asked (gen 2) with
      | some q =>
        obtain ⟨hl, hm⟩ := usableResult_spec h2
        dsimp only
        exact ⟨by omega, str_ne_empty_of_length (by omega), fun _ => hm, Or.inl rfl⟩
      | none =>
        cases hb : bankLookup (pyLower skill) with
        | some lq =>
          dsimp only
          refine ⟨by omega, bank_values_ne_empty hb, ?_, Or.inr (Or.inl rfl)⟩
          intro hgen
          exact absurd hgen (by simp)
        | none =>
          dsimp only
          refine ⟨by omega, fallbackQuestion_ne_empty skill, ?_, Or.inr (Or.inr rfl)⟩
          intro hgen
          exact absurd hgen (by simp)
theorem generateAllAux_length (gen : Nat → Nat → Option String) :
    ∀ (skills : List String) (i : Nat) (asked : List String),
      (generateAllAux gen i asked skills).1.length = skills.length := by
  intro skills
  induction skills with
  | nil => intro i asked; rfl
  | cons sk rest ih =>
    intro i asked
    simp only [generateAllAux, List.length_cons]
    rw [ih]

/-- The asked set after the loop is the initial one followed by the
generated (non-fallback) question texts, in order. -/
theorem generateAllAux_asked (gen : Nat → Nat → Option String) :
    ∀ (skills : List String) (i : Nat) (asked : List String),
      (generateAllAux gen i asked skills).2 =
        asked ++ ((generateAllAux gen i asked skills).1.filter (fun p => p.2)).map Prod.fst := by
  intro skills
  induction skills with
  | nil => intro i asked; simp [generateAllAux]
  | cons sk rest ih =>
    intro i asked
    simp only [generateAllAux]
    cases hg : (get_question (gen i) asked sk).generated
    · simp only [if_neg (by simp : ¬(false = true)),
        List.filter_cons_of_neg (by simp : ¬((((get_question (gen i) asked sk).question, false)).2 = true))]
      exact ih (i + 1) asked
    · simp only [eq_self_iff_true, if_true,
        List.filter_cons_of_pos (by simp : ((((get_question (gen i) asked sk).question, true)).2 = true))]
      rw [ih (i + 1) (asked ++ [(get_question (gen i) asked sk).question])]
      simp [List.append_assoc]

theorem generateAllAux_nodup (gen : Nat → Nat → Option String) :
    ∀ (skills : List String) (i : Nat) (asked : List String), asked.Nodup →
      (asked ++ ((generateAllAux gen i asked skills).1.filter (fun p => p.2)).map Prod.fst).Nodup := by
  intro skills
  induction skills with
  | nil =>
    intro i asked h
    simpa [generateAllAux] using h
  | cons sk rest ih =>
    intro i asked h
    simp only [generateAllAux]
    cases hg : (get_question (gen i) asked sk).generated
    · simp only [if_neg (by simp : ¬(false = true)),
        List.filter_cons_of_neg (by simp : ¬((((get_question (gen i) asked sk).question, false)).2 = true))]
      exact ih (i + 1) asked h
    · simp only [eq_self_iff_true, if_true,
        List.filter_cons_of_pos (by simp : ((((get_question (gen i) asked sk).question, true)).2 = true))]
      have hq : (get_question (gen i) asked sk).question ∉ asked :=
        (get_question_spec (gen i) asked sk).2.2.1 hg
      have h' : (asked ++ [(get_question (gen i) asked sk).question]).Nodup := by
        rw [List.nodup_append]
        exact ⟨h, List.nodup_singleton _, by
          intro x hx hmem
          rw [List.mem_singleton] at hmem
          rw [hmem] at hx
          exact hq hx⟩
      have := ih (i + 1) (asked ++ [(get_question (gen i) asked sk).question]) h'
      simpa [List.append_assoc] using this

/-- A value the local validator accepts is accepted at its field stage no
matter what the advisory validation said: the record field is written and
the stage advances. -/
theorem field_accept (o : TurnOracle) (s : SessionState) (input : String)
    (hmem : s.stage ∈ fieldStages) (hne : pyStrip input ≠ "")
    (hval : localValidator s.stage (pyStrip input) = true) :
    (step o s input).stage = nextStage s.stage ∧
    (step o s input).info = setField s.stage s.info (pyStrip input) := by
  have hex : isExitKeyword (pyStrip input) = false := by
    cases hx : isExitKeyword (pyStrip input)
    · rfl
    · rw [exit_not_validated hx s.stage] at hval
      exact absurd hval (by simp)
  obtain ⟨st, info, msgs, mok, fs, fsi⟩ := s
  simp only [fieldStages, List.mem_cons, List.not_mem_nil, or_false] at hmem
  simp only at hval ⊢
  rcases hmem with rfl | rfl | rfl | rfl | rfl | rfl <;>
    simp only [localValidator] at hval <;>
    simp only [step, if_neg hne, hex, Bool.false_eq_true, if_neg (by simp : ¬(False))]
  · simp [handleName, hval, nextStage, setField]
  · simp [handleEmail, hval, nextStage, setField]
  · rw [handlePhone]
    rw [if_neg (by rw [phone_no_alpha hval]; simp)]
    simp [hval, nextStage, setField]
  · simp [handleExperience, hval, nextStage, setField]
  · simp [handlePosition, hval, nextStage, setField]
  · simp [handleLocation, hval, nextStage, setField]

/-- When the advisory validation says no and the local validator also
rejects, the turn re-prompts in place: stage and record unchanged, one of the
stage's corrective messages appended. -/
theorem field_reject (o : TurnOracle) (s : SessionState) (input : String)
    (hmem : s.stage ∈ fieldStages) (hne : pyStrip input ≠ "")
    (hex : isExitKeyword (pyStrip input) = false)
    (hllm : validateWithLLM o.validateResp = false)
    (hval : localValidator s.stage (pyStrip input) = false) :
    (step o s input).stage = s.stage ∧
    (step o s input).info = s.info ∧
    ∃ m ∈ correctiveMsgs s.stage,
      (step o s input).messages =
        appendUserDedup s.messages (pyStrip input) ++ [⟨Role.assistant, m⟩] := by
  obtain ⟨st, info, msgs, mok, fs, fsi⟩ := s
  simp only [fieldStages, List.mem_cons, List.not_mem_nil, or_false] at hmem
  simp only at hval ⊢
  rcases hmem with rfl | rfl | rfl | rfl | rfl | rfl <;>
    simp only [localValidator] at hval <;>
    simp only [step, if_neg hne, hex, Bool.false_eq_true, if_neg (by simp : ¬(False))]
  · refine ⟨?_, ?_, nameRejectMsg, by simp [correctiveMsgs], ?_⟩ <;>
      simp [handleName, hval, hllm]
  · refine ⟨?_, ?_, emailRejectMsg, by simp [correctiveMsgs], ?_⟩ <;>
      simp [handleEmail, hval, hllm]
  · cases ha : (pyStrip input).data.any isAsciiAlpha
    · refine ⟨?_, ?_, phoneRejectMsg, by simp [correctiveMsgs], ?_⟩ <;>
        simp [handlePhone, ha, hval, hllm]
    · refine ⟨?_, ?_, phoneRejectAlphaMsg, by simp [correctiveMsgs], ?_⟩ <;>
        simp [handlePhone, ha, hval, hllm]
  · refine ⟨?_, ?_, expRejectMsg, by simp [correctiveMsgs], ?_⟩ <;>
      simp [handleExperience, hval, hllm]
  · refine ⟨?_, ?_, positionRejectMsg, by simp [correctiveMsgs], ?_⟩ <;>
      simp [handlePosition, hval, hllm]
  · refine ⟨?_, ?_, locationRejectMsg, by simp [correctiveMsgs], ?_⟩ <;>
      simp [handleLocation, hval, hllm]

/-- One turn preserves the answers/questions invariant. -/
theorem step_answersInv (o : TurnOracle) (input : String) (s : SessionState)
    (h : answersInv s) : answersInv (step o s input) := by
  unfold answersInv at *
  by_cases hne : pyStrip input = ""
  · simpa [step, hne] using h
  cases hex : isExitKeyword (pyStrip input)
  · obtain ⟨st, info, msgs, mok, fs, fsi⟩ := s
    simp only at h
    cases st with
    | greeting =>
      simp only [step, if_neg hne, hex, Bool.false_eq_true, if_neg (by simp : ¬(False)),
        handleFallback]
      simpa using h
    | completed =>
      simp only [step, if_neg hne, hex, Bool.false_eq_true, if_neg (by simp : ¬(False)),
        handleFallback]
      simpa using h
    | ended =>
      simp only [step, if_neg hne, hex, Bool.false_eq_true, if_neg (by simp : ¬(False)),
        handleFallback]
      simpa using h
    | get_name =>
      have h' : info.answers.length ≤ info.tech_questions.length := by
        rcases h with h | ⟨hst, _⟩
        · exact h
        · rcases hst with hst | hst <;> exact absurd hst (by simp)
      simp only [step, if_neg hne, hex, Bool.false_eq_true, if_neg (by simp : ¬(False)),
        handleName]
      split <;> simp [h']
    | get_email =>
      have h' : info.answers.length ≤ info.tech_questions.length := by
        rcases h with h | ⟨hst, _⟩
        · exact h
        · rcases hst with hst | hst <;> exact absurd hst (by simp)
      simp only [step, if_neg hne, hex, Bool.false_eq_true, if_neg (by simp : ¬(False)),
        handleEmail]
      split <;> simp [h']
    | get_phone =>
      have h' : info.answers.length ≤ info.tech_questions.length := by
        rcases h with h | ⟨hst, _⟩
        · exact h
        · rcases hst with hst | hst <;> exact absurd hst (by simp)
      simp only [step, if_neg hne, hex, Bool.false_eq_true, if_neg (by simp : ¬(False)),
        handlePhone]
      split
      · simp [h']
      · split <;> simp [h']
    | get_experience =>
      have h' : info.answers.length ≤ info.tech_questions.length := by
        rcases h with h | ⟨hst, _⟩
        · exact h
        · rcases hst with hst | hst <;> exact absurd hst (by simp)
      simp only [step, if_neg hne, hex, Bool.false_eq_true, if_neg (by simp : ¬(False)),
        handleExperience]
      split <;> simp [h']
    | get_position =>
      have h' : info.answers.length ≤ info.tech_questions.length := by
        rcases h with h | ⟨hst, _⟩
        · exact h
        · rcases hst with hst | hst <;> exact absurd hst (by simp)
      simp only [step, if_neg hne, hex, Bool.false_eq_true, if_neg (by simp : ¬(False)),
        handlePosition]
      split <;> simp [h']
    | get_location =>
      have h' : info.answers.length ≤ info.tech_questions.length := by
        rcases h with h | ⟨hst, _⟩
        · exact h
        · rcases hst with hst | hst <;> exact absurd hst (by simp)
      simp only [step, if_neg hne, hex, Bool.false_eq_true, if_neg (by simp : ¬(False)),
        handleLocation]
      split <;> simp [h']
    | get_tech_stack =>
      simp only [step, if_neg hne, hex, Bool.false_eq_true, if_neg (by simp : ¬(False)),
        handleTechStack]
      split
      · simp
      · split
        · simp
        · split <;> simp
    | tech_questions =>
      have h' : info.answers.length ≤ info.tech_questions.length := by
        rcases h with h | ⟨hst, _⟩
        · exact h
        · rcases hst with hst | hst <;> exact absurd hst (by simp)
      simp only [step, if_neg hne, hex, Bool.false_eq_true, if_neg (by simp : ¬(False)),
        handleTechQuestions]
      split
      · split
        · left
          simp only [List.length_append, List.length_cons, List.length_nil]
          rename_i hlt hlt2
          omega
        · right
          simp
      · left
        simpa using h'
    | question_retry_choice =>
      have h' : info.answers.length ≤ info.tech_questions.length := by
        rcases h with h | ⟨hst, _⟩
        · exact h
        · rcases hst with hst | hst <;> exact absurd hst (by simp)
      simp only [step, if_neg hne, hex, Bool.false_eq_true, if_neg (by simp : ¬(False)),
        handleRetryChoice]
      split
      · simp [h']
      · split
        · simp [h']
        · split <;> simp [h']
    | rephrase_skill =>
      have h' : info.answers.length ≤ info.tech_questions.length := by
        rcases h with h | ⟨hst, _⟩
        · exact h
        · rcases hst with hst | hst <;> exact absurd hst (by simp)
      simp only [step, if_neg hne, hex, Bool.false_eq_true, if_neg (by simp : ¬(False)),
        handleRephraseSkill]
      split <;> simp [h']
  · obtain ⟨st, info, msgs, mok, fs, fsi⟩ := s
    simp only [step, if_neg hne, hex, if_pos trivial]
    simp only at h ⊢
    rcases h with h | ⟨hst, hq⟩
    · left
      exact h
    · right
      exact ⟨Or.inr trivial, hq⟩

/-! ### Claim theorems -/

/-- Claim C2 (confirmed): for every skill and every already-asked set, the
per-skill question generation makes at most 3 text-completion attempts,
never raises (every service failure is an oracle `none`, absorbed by the
total function), and always yields a non-empty question — the generated
answer, the static bank entry for the lower-cased skill, or the generic
degraded fallback naming the skill. -/
theorem c2_question_source_total (gen : Nat → Option String) (asked : List String)
    (skill : String) :
    (get_question gen asked skill).attempts ≤ 3 ∧
    (get_question gen asked skill).question ≠ "" ∧
    ((get_question gen asked skill).generated = true ∨
      bankLookup (pyLower skill) = some (get_question gen asked skill).question ∨
      (get_question gen asked skill).question = fallbackQuestion skill) := by
  obtain ⟨h1, h2, _, h4⟩ := get_question_spec gen asked skill
  exact ⟨h1, h2, h4⟩

/-- Claim C3 (confirmed): in every state, a non-empty input whose stripped
form is an exit keyword (case-insensitive `exit`/`quit`/`goodbye`/`bye`)
moves the session to `ended` without touching the record, and the closing
message is selected by the persistence-status flag: unset gives the generic
thanks, `True` the saved confirmation, `False` the save-error wording. -/
theorem c3_exit_keywords (o : TurnOracle) (s : SessionState) (input : String)
    (hne : pyStrip input ≠ "") (hex : isExitKeyword (pyStrip input) = true) :
    (step o s input).stage = Stage.ended ∧
    (step o s input).info = s.info ∧
    (step o s input).messages =
      s.messages ++ [⟨Role.user, pyStrip input⟩, ⟨Role.assistant, closingMsg s.info⟩] ∧
    (s.info.mongo_save_status = none →
      ∃ r, closingMsg s.info = "Thank you for your time! " ++ r) ∧
    (s.info.mongo_save_status = some true →
      ∃ r, closingMsg s.info = "Thank you, your answers have been saved. " ++ r) ∧
    (s.info.mongo_save_status = some false →
      closingMsg s.info = "Error in storing your answers. Please try again later.") := by
  refine ⟨?_, ?_, ?_, ?_, ?_, ?_⟩
  · simp [step, if_neg hne, hex]
  · simp [step, if_neg hne, hex]
  · simp [step, if_neg hne, hex]
  · intro hm
    exact ⟨namePart s.info ++ posPart s.info ++ "Have a great day! 👋",
      by simp [closingMsg, hm, String.append_assoc]⟩
  · intro hm
    exact ⟨namePart s.info ++ posPart s.info ++ "You can close the window now.",
      by simp [closingMsg, hm, String.append_assoc]⟩
  · intro hm
    simp [closingMsg, hm]

theorem c3_exit_keywords_witness :
    (step noLLM (initState false) "EXIT").stage = Stage.ended :=
  (c3_exit_keywords noLLM (initState false) "EXIT" (by decide) (by decide)).1
theorem nextStage_ne (st : Stage) (hmem : st ∈ fieldStages) : nextStage st ≠ st := by
  simp only [fieldStages, List.mem_cons, List.not_mem_nil, or_false] at hmem
  rcases hmem with rfl | rfl | rfl | rfl | rfl | rfl <;> decide

/-- Claim C10 (confirmed): the advisory validation helper is total (an
exception is the `none` oracle outcome and yields `false`), returns true
exactly when the service reply, stripped and lower-cased, starts with
`"yes"`, and when the call fails acceptance at a field stage is decided by
the local check alone. -/
theorem c10_validate_with_llm :
    validateWithLLM none = false ∧
    (∀ resp : Option String, validateWithLLM resp = true ↔
      ∃ r, resp = some r ∧ pyStartsWith (pyLower (pyStrip r)) "yes" = true) ∧
    (∀ (o : TurnOracle) (s : SessionState) (input : String),
      o.validateResp = none → s.stage ∈ fieldStages → pyStrip input ≠ "" →
      isExitKeyword (pyStrip input) = false →
      ((step o s input).stage = nextStage s.stage ↔
        localValidator s.stage (pyStrip input) = true)) := by
  refine ⟨rfl, ?_, ?_⟩
  · intro resp
    cases resp with
    | none => simp [validateWithLLM]
    | some r =>
      by_cases hr : r = ""
      · subst hr
        constructor
        · intro h
          exact absurd h (by decide)
        · rintro ⟨r', hr', hst⟩
          obtain rfl : r' = "" := by simpa using hr'.symm
          exact absurd hst (by decide)
      · simp only [validateWithLLM, beq_iff_eq, if_neg hr, Bool.or_eq_true]
        constructor
        · rintro (h | h)
          · exact ⟨r, rfl, h⟩
          · refine ⟨r, rfl, ?_⟩
            rw [h]
            decide
        · rintro ⟨r', hr', hst⟩
          obtain rfl : r' = r := by simpa using hr'.symm
          exact Or.inl hst
  · intro o s input hresp hmem hne hex
    constructor
    · intro hadv
      cases hval : localValidator s.stage (pyStrip input)
      · have hllm : validateWithLLM o.validateResp = false := by rw [hresp]; rfl
        have := (field_reject o s input hmem hne hex hllm hval).1
        rw [this] at hadv
        exact absurd hadv.symm (nextStage_ne s.stage hmem)
      · rfl
    · intro hval
      exact (field_accept o s input hmem hne hval).1

theorem c10_validate_with_llm_witness :
    (step noLLM demo1 "john@example.com").stage = nextStage demo1.stage :=
  (c10_validate_with_llm.2.2 noLLM demo1 "john@example.com" rfl (by decide) (by decide)
    (by decide)).2 (by decide)
theorem pyFloat?_den_pos {s : String} {n : Int} {d : Nat}
    (h : pyFloat? s = some (n, d)) : 0 < d := by
  simp only [pyFloat?] at h
  split at h
  · split at h
    · rw [Option.some.injEq, Prod.mk.injEq] at h
      rw [← h.2]
      positivity
    · rw [Option.some.injEq, Prod.mk.injEq] at h
      rw [← h.2]
      positivity
  · exact absurd h (by simp)

/-- Claim C8 (confirmed): the experience validator accepts exactly the
strings whose `float(...)` value (modelled as the exact rational `n / d`)
lies in `[0, 50]`; in particular `"0"` and `"50"` are accepted and `"50.1"`
and `"-1"` rejected, also at the experience stage of a live session. -/
theorem c8_experience_validator :
    looks_like_experience "0" = true ∧ looks_like_experience "50" = true ∧
    looks_like_experience "50.1" = false ∧ looks_like_experience "-1" = false ∧
    (step noLLM demo3 "0").stage = Stage.get_position ∧
    (step noLLM demo3 "50").stage = Stage.get_position ∧
    (step noLLM demo3 "50.1").stage = Stage.get_experience ∧
    (step noLLM demo3 "-1").stage = Stage.get_experience ∧
    (∀ s : String, looks_like_experience s = true ↔
      ∃ (n : Int) (d : Nat), pyFloat? (pyStrip s) = some (n, d) ∧
        0 ≤ (n : ℚ) / (d : ℚ) ∧ (n : ℚ) / (d : ℚ) ≤ 50) := by
  refine ⟨by decide, by decide, by decide, by decide, by decide, by decide, by decide,
    by decide, ?_⟩
  intro s
  cases hp : pyFloat? (pyStrip s) with
  | none =>
    constructor
    · intro h
      simp only [looks_like_experience] at h
      rw [hp] at h
      exact absurd h (by simp)
    · rintro ⟨n, d, hnd, _⟩
      exact absurd hnd (by simp)
  | some nd =>
    obtain ⟨n, d⟩ := nd
    have hd : 0 < d := pyFloat?_den_pos hp
    have hdq : (0 : ℚ) < (d : ℚ) := by exact_mod_cast hd
    have hval : looks_like_experience s = (decide (0 ≤ n) && decide (n ≤ 50 * (d : Int))) := by
      simp only [looks_like_experience]
      rw [hp]
    rw [hval]
    simp only [Bool.and_eq_true, decide_eq_true_eq]
    constructor
    · rintro ⟨h1, h2⟩
      refine ⟨n, d, rfl, ?_, ?_⟩
      · rw [le_div_iff₀ hdq, zero_mul]
        exact_mod_cast h1
      · rw [div_le_iff₀ hdq]
        exact_mod_cast h2
    · rintro ⟨n', d', hnd, hge, hle⟩
      rw [Option.some.injEq, Prod.mk.injEq] at hnd
      obtain ⟨rfl, rfl⟩ := hnd.symm
      rw [le_div_iff₀ hdq, zero_mul] at hge
      rw [div_le_iff₀ hdq] at hle
      exact ⟨by exact_mod_cast hge, by exact_mod_cast hle⟩

/-- Claim C4 (confirmed, with the exit side-condition the spec states
separately): at a field stage, a non-empty, non-exit input rejected by both
the advisory validation and the local validator leaves stage and record
unchanged and appends that stage's corrective message; the corrective
message sets of the six stages are pairwise disjoint (field-specific). -/
theorem c4_double_rejection (o : TurnOracle) (s : SessionState) (input : String)
    (hmem : s.stage ∈ fieldStages) (hne : pyStrip input ≠ "")
    (hex : isExitKeyword (pyStrip input) = false)
    (hllm : validateWithLLM o.validateResp = false)
    (hval : localValidator s.stage (pyStrip input) = false) :
    (step o s input).stage = s.stage ∧
    (step o s input).info = s.info ∧
    (∃ m ∈ correctiveMsgs s.stage,
      (step o s input).messages =
        appendUserDedup s.messages (pyStrip input) ++ [⟨Role.assistant, m⟩]) ∧
    List.Pairwise (fun a b => ∀ x ∈ a, x ∉ b) (fieldStages.map correctiveMsgs) := by
  obtain ⟨h1, h2, h3⟩ := field_reject o s input hmem hne hex hllm hval
  exact ⟨h1, h2, h3, by decide⟩

theorem c4_double_rejection_witness :
    (step noLLM demo1 "not-an-email").stage = demo1.stage ∧
    (step noLLM demo1 "not-an-email").info = demo1.info :=
  ⟨(c4_double_rejection noLLM demo1 "not-an-email" (by decide) (by decide) (by decide) rfl
      (by decide)).1,
   (c4_double_rejection noLLM demo1 "not-an-email" (by decide) (by decide) (by decide) rfl
      (by decide)).2.1⟩

/-- Claim C5 (confirmed): at a field stage, when the advisory validation
answers no but the local validator accepts, the value is accepted anyway —
written into the record field of that stage — and the stage advances to its
fixed successor; the advisory opinion is never a hard block. -/
theorem c5_regex_overrides_llm (o : TurnOracle) (s : SessionState) (input : String)
    (hmem : s.stage ∈ fieldStages)
    (hllm : validateWithLLM o.validateResp = false)
    (hval : localValidator s.stage (pyStrip input) = true) :
    (step o s input).stage = nextStage s.stage ∧
    (step o s input).info = setField s.stage s.info (pyStrip input) := by
  have hne : pyStrip input ≠ "" := by
    intro h0
    rw [h0] at hval
    have hempty : ∀ st ∈ fieldStages, localValidator st "" = false := by decide
    rw [hempty s.stage hmem] at hval
    exact absurd hval (by simp)
  exact field_accept o s input hmem hne hval

theorem c5_regex_overrides_llm_witness :
    (step noLLM (initState false) "John Smith").stage = nextStage Stage.get_name ∧
    (step noLLM (initState false) "John Smith").info.name = some "John Smith" :=
  ⟨(c5_regex_overrides_llm noLLM (initState false) "John Smith" (by decide) rfl (by decide)).1,
   by
    rw [(c5_regex_overrides_llm noLLM (initState false) "John Smith" (by decide) rfl
      (by decide)).2]
    decide⟩

/-- Claim C6, counterexample: a full run (name, email, phone, experience,
position, location, a one-skill tech stack, one answer) reaches `completed`,
where the source clears `tech_questions` but keeps the answer, so the
answers size strictly exceeds the questions size at a reachable point. -/
theorem c6_counterexample :
    Reachable demo8 ∧ demo8.stage = Stage.completed ∧
    demo8.info.tech_questions.length < demo8.info.answers.length := by
  refine ⟨?_, by decide, by decide⟩
  unfold demo8 demo7 demo6 demo5 demo4 demo3 demo2 demo1
  exact Reachable.step _ _ _ (Reachable.step _ _ _ (Reachable.step _ _ _
    (Reachable.step _ _ _ (Reachable.step _ _ _ (Reachable.step _ _ _
    (Reachable.step _ _ _ (Reachable.step _ _ _ (Reachable.init false))))))))

/-- Claim C6, amended: at every reachable point the answers size is at most
the questions size, except after the completion transition, which clears the
question list while keeping the answers (the stage is then `completed`, or
`ended` after a subsequent exit, with an empty question list). -/
theorem c6_amended_answers_bound (s : SessionState) (h : Reachable s) : answersInv s := by
  induction h with
  | init b =>
    left
    exact Nat.le_refl 0
  | step o s' input hr ih => exact step_answersInv o input s' ih

theorem c6_amended_answers_bound_witness : answersInv (initState false) :=
  c6_amended_answers_bound (initState false) (Reachable.init false)

/-- Claim C7, counterexample: at the reachable tech-stack stage the input
`"a, bb"` is rejected (first skill shorter than 2), the stage stays
`get_tech_stack`, but the record is still mutated: `tech_stack` is
overwritten with the raw rejected input. -/
theorem c7_counterexample :
    Reachable demo6 ∧ demo6.stage = Stage.get_tech_stack ∧
    ((parseSkills (pyStrip "a, bb")).any (fun sk => decide (sk.length < 2)) = true) ∧
    (step noLLM demo6 "a, bb").stage = Stage.get_tech_stack ∧
    demo6.info.tech_stack = none ∧
    (step noLLM demo6 "a, bb").info.tech_stack = some "a, bb" ∧
    (step noLLM demo6 "a, bb").info ≠ demo6.info := by
  refine ⟨?_, by decide, by decide, by decide, by decide, by decide, by decide⟩
  unfold demo6 demo5 demo4 demo3 demo2 demo1
  exact Reachable.step _ _ _ (Reachable.step _ _ _ (Reachable.step _ _ _
    (Reachable.step _ _ _ (Reachable.step _ _ _ (Reachable.step _ _ _
    (Reachable.init false))))))

/-- Claim C7, amended: a rejected tech-stack turn keeps the stage at
`get_tech_stack` and stores no skills or questions, but the record is not
untouched: its `tech_stack` field is overwritten with the rejected input and
`tech_questions`/`answers` are reset to empty before validation. -/
theorem c7_amended_reject_mutation (o : TurnOracle) (s : SessionState) (input : String)
    (hst : s.stage = Stage.get_tech_stack) (hne : pyStrip input ≠ "")
    (hex : isExitKeyword (pyStrip input) = false)
    (hrej : (parseSkills (pyStrip input)).isEmpty = true ∨
      (parseSkills (pyStrip input)).any (fun sk => decide (sk.length < 2)) = true) :
    (step o s input).stage = Stage.get_tech_stack ∧
    (step o s input).info =
      { s.info with tech_stack := some (pyStrip input), tech_questions := [],
                    answers := [] } := by
  obtain ⟨st, info, msgs, mok, fs, fsi⟩ := s
  simp only at hst
  subst hst
  simp only [step, if_neg hne, hex, Bool.false_eq_true, if_neg (by simp : ¬(False)),
    handleTechStack]
  rw [if_pos (Bool.or_eq_true _ _ |>.mpr hrej)]
  exact ⟨rfl, rfl⟩

theorem c7_amended_reject_mutation_witness :
    (step noLLM demo6 "a, bb").stage = Stage.get_tech_stack ∧
    (step noLLM demo6 "a, bb").info =
      { demo6.info with tech_stack := some (pyStrip "a, bb"), tech_questions := [],
                        answers := [] } :=
  c7_amended_reject_mutation noLLM demo6 "a, bb" (by decide) (by decide) (by decide)
    (Or.inr (by decide))

/-- Claim C1 (confirmed): an accepted tech-stack input (non-exit, parsing to
at least one skill, all skills at least 2 characters) produces exactly one
question per skill in skill order, with the LLM-generated (non-fallback)
questions pairwise distinct, the first question being the question-source
output for the first skill, and moves the stage to `tech_questions`. -/
theorem c1_tech_stack_processing (o : TurnOracle) (s : SessionState) (input : String)
    (hst : s.stage = Stage.get_tech_stack)
    (hex : isExitKeyword (pyStrip input) = false)
    (hskills : parseSkills (pyStrip input) ≠ [])
    (hlen : ∀ sk ∈ parseSkills (pyStrip input), 2 ≤ sk.length) :
    (step o s input).stage = Stage.tech_questions ∧
    (step o s input).info.tech_questions =
      ((generateAll o.genResp (parseSkills (pyStrip input))).1).map Prod.fst ∧
    (step o s input).info.tech_questions.length = (parseSkills (pyStrip input)).length ∧
    ((((generateAll o.genResp (parseSkills (pyStrip input))).1).filter
        (fun p => p.2)).map Prod.fst).Nodup ∧
    (step o s input).info.tech_questions.head? =
      some (get_question (o.genResp 0) []
        ((parseSkills (pyStrip input)).headD "")).question := by
  have hne : pyStrip input ≠ "" := by
    intro h0
    rw [h0] at hskills
    exact hskills (by decide)
  have hnodup :
      ((((generateAll o.genResp (parseSkills (pyStrip input))).1).filter
        (fun p => p.2)).map Prod.fst).Nodup := by
    have := generateAllAux_nodup o.genResp (parseSkills (pyStrip input)) 0 [] List.nodup_nil
    simpa [generateAll] using this
  have hcondf : ((parseSkills (pyStrip input)).isEmpty ||
      (parseSkills (pyStrip input)).any (fun sk => decide (sk.length < 2))) = false := by
    rw [Bool.or_eq_false_iff]
    constructor
    · simpa [List.isEmpty_iff] using hskills
    · rw [List.any_eq_false]
      intro sk hsk
      have := hlen sk hsk
      simp only [decide_eq_true_eq]
      omega
  obtain ⟨sk0, rest, hsk⟩ := List.exists_cons_of_ne_nil hskills
  obtain ⟨st, info, msgs, mok, fs, fsi⟩ := s
  simp only at hst
  subst hst
  simp only [step, if_neg hne, hex, Bool.false_eq_true, if_neg (by simp : ¬(False)),
    handleTechStack]
  rw [if_neg (by rw [hcondf]; simp)]
  rw [hsk] at hnodup ⊢
  have hq0 : (get_question (o.genResp 0) [] sk0).question ≠ "" :=
    (get_question_spec (o.genResp 0) [] sk0).2.1
  simp only [generateAll, generateAllAux, List.map_cons]
  rw [if_neg hq0]
  refine ⟨rfl, rfl, ?_, ?_, rfl⟩
  · simp only [List.length_map, List.length_cons]
    have := generateAllAux_length o.genResp rest 1
      (if (get_question (o.genResp 0) [] sk0).generated = true then
        [] ++ [(get_question (o.genResp 0) [] sk0).question] else [])
    rw [this]
  · exact hnodup
theorem c1_tech_stack_processing_witness :
    (step noLLM demo6 "Python, Docker").stage = Stage.tech_questions ∧
    (step noLLM demo6 "Python, Docker").info.tech_questions.length =
      (parseSkills (pyStrip "Python, Docker")).length :=
  ⟨(c1_tech_stack_processing noLLM demo6 "Python, Docker" (by decide) (by decide) (by decide)
      (by decide)).1,
   (c1_tech_stack_processing noLLM demo6 "Python, Docker" (by decide) (by decide) (by decide)
      (by decide)).2.2.1⟩

/-- Claim C9 (confirmed): the response cache key depends only on the first
50 characters of the prompt and the first 30 of the system message; when a
first call left its response cached, a second call agreeing on those
prefixes returns that very response with the service not invoked, and the
per-skill question prompts of any two skills share one cache key (their
fixed prefix exceeds 50 characters). -/
theorem c9_cache_key_truncation (st0 : MgrState) (o1 o2 : GenOracle) (p1 p2 : String)
    (sm1 sm2 : Option String)
    (h50 : p1.data.take 50 = p2.data.take 50)
    (h30 : (match sm1 with
            | some x => x.data.take 30
            | none => ([] : List Char)) =
           (match sm2 with
            | some x => x.data.take 30
            | none => []))
    (hc : cacheLookup (generate_response st0 o1 p1 sm1).2.1.cache (cacheKey p1 sm1) =
          some (generate_response st0 o1 p1 sm1).1) :
    generate_response (generate_response st0 o1 p1 sm1).2.1 o2 p2 sm2 =
      ((generate_response st0 o1 p1 sm1).1,
       (generate_response st0 o1 p1 sm1).2.1, false) ∧
    ∀ s1 s2 : String,
      cacheKey (questionSystemPrompt s1) none = cacheKey (questionSystemPrompt s2) none := by
  have hkey : cacheKey p2 sm2 = cacheKey p1 sm1 := by
    simp only [cacheKey]
    rw [h50, h30]
  constructor
  · conv_lhs => rw [generate_response]
    rw [hkey, hc]
  · intro s1 s2
    have hpre : ∀ sk : String, (questionSystemPrompt sk).data.take 50 =
        ("You are an AI hiring assistant. Generate a technical interview question for a BEGINNER about the following skill: ").data.take 50 := by
      intro sk
      simp only [questionSystemPrompt, String.data_append, List.append_assoc]
      rw [List.take_append_of_le_length (by decide)]
    simp only [cacheKey]
    rw [hpre s1, hpre s2]

theorem c9_cache_key_truncation_witness :
    generate_response
        (generate_response mgrInit genOracleOk (questionSystemPrompt "python") none).2.1
        genOracleOk (questionSystemPrompt "docker") none =
      ((generate_response mgrInit genOracleOk (questionSystemPrompt "python") none).1,
       (generate_response mgrInit genOracleOk (questionSystemPrompt "python") none).2.1,
       false) :=
  (c9_cache_key_truncation mgrInit genOracleOk genOracleOk (questionSystemPrompt "python")
    (questionSystemPrompt "docker") none none (by decide) rfl (by decide)).1
